import Mathlib

/-!
Shallow embedding of `vsphere/resource_vsphere_virtual_machine_migrate.go`
(the versioned state-migration engine for the `vsphere_virtual_machine`
resource) and proofs about it.

Modelling conventions:
- A Go `map[string]string` is an association list `List (String × String)`.
  Go maps have unique keys; all statements here are phrased through the
  first-match lookup, so they are insensitive to duplicate entries.
- Go map iteration order is unspecified.  The two loops in the source are
  order-independent in their observable effect (the v1 loop only ever adds
  keys ending in ".controller_type", which never match its own filter, and
  the v2 loop computes a running maximum), so the embedding iterates the
  association list in order.
- Go `int` is modelled as 64-bit (`strconv.Atoi` clamps to the int64 range
  on range errors); the `int32` conversions written in the source are
  modelled by explicit two's-complement wrapping.
- The external collaborators (govmomi lookups, the disk import routine and
  the resource schema defaults) are a record of functions `Env`; the
  source only observes them through their results.
-/

namespace VSphereMigrate

/-- Attribute map of a terraform instance state: Go `map[string]string`. -/
abbrev Attrs := List (String × String)

/-- The persisted record: `terraform.InstanceState` restricted to the two
fields the source reads or writes (`ID` and `Attributes`). -/
structure InstanceState where
  id : String
  attributes : Attrs
deriving DecidableEq

/-- First-match lookup, `none` when the key is missing (Go comma-ok read). -/
def lookupGo? (m : Attrs) (k : String) : Option String :=
  match m with
  | [] => none
  | (k2, v) :: rest => if k2 = k then some v else lookupGo? rest k

/-- Plain Go map indexing: missing keys read as the zero value `""`. -/
def lookupGo (m : Attrs) (k : String) : String :=
  (lookupGo? m k).getD ""

/-- Go map assignment `m[k] = v`: replace the binding if present, else add. -/
def insertGo (m : Attrs) (k v : String) : Attrs :=
  match m with
  | [] => [(k, v)]
  | (k2, v2) :: rest => if k2 = k then (k, v) :: rest else (k2, v2) :: insertGo rest k v

/-- Key list of an attribute map (`for k := range m`). -/
def keysOf (m : Attrs) : List String :=
  m.map Prod.fst

/-- Modelled from the spec: `terraform.InstanceState.Empty` is declared in
the external terraform library, not in this repository.  The spec reads:
"A record with no attributes (empty) or a nil record is returned unchanged
— it owns no data worth migrating", so a record is empty exactly when it
carries no attributes. -/
def InstanceState.isEmptyGo (is : InstanceState) : Bool :=
  is.attributes.isEmpty

/-- Digit run to a number, for `strconv.Atoi`. -/
def digitsToNat (s : List Char) : Nat :=
  s.foldl (fun a c => a * 10 + (c.toNat - 48)) 0

/-- Integer literal syntax accepted by `strconv.Atoi` for base 10:
an optional sign followed by one or more digits.  `none` on syntax error. -/
def parseIntLit (s : String) : Option Int :=
  match s.data with
  | [] => none
  | '+' :: rest =>
    if !rest.isEmpty && rest.all Char.isDigit then some (digitsToNat rest : Int) else none
  | '-' :: rest =>
    if !rest.isEmpty && rest.all Char.isDigit then some (-(digitsToNat rest : Int)) else none
  | cs =>
    if cs.all Char.isDigit then some (digitsToNat cs : Int) else none

/-- Clamp to the 64-bit signed range, as `strconv.ParseInt` does on a range
error (the source ignores the returned error and keeps the clamped value). -/
def clamp64 (n : Int) : Int :=
  max (-(2 ^ 63)) (min (2 ^ 63 - 1) n)

/-- `strconv.Atoi` with the error discarded, as used in the source:
syntax errors yield 0, range errors yield the clamped value. -/
def atoiGo (s : String) : Int :=
  match parseIntLit s with
  | none => 0
  | some n => clamp64 n

/-- Two's-complement wrap of a Go `int32` conversion. -/
def toInt32 (n : Int) : Int :=
  (n + 2 ^ 31) % 2 ^ 32 - 2 ^ 31

/-- Boolean check that the char list `pat` starts the char list `l`. -/
def listPreOf : List Char → List Char → Bool
  | [], _ => true
  | _ :: _, [] => false
  | a :: as, b :: bs => a == b && listPreOf as bs

/-- Go `strings.HasPrefix`. -/
def goHasPre (s pat : String) : Bool :=
  listPreOf pat.data s.data

/-- Go `strings.HasSuffix`. -/
def goHasSuf (s pat : String) : Bool :=
  listPreOf pat.data.reverse s.data.reverse

/-- Go `strings.Split` on a single dot, via an accumulator. -/
def splitDotAux : List Char → List Char → List String
  | [], acc => [⟨acc⟩]
  | c :: rest, acc => if c = '.' then ⟨acc⟩ :: splitDotAux rest [] else splitDotAux rest (acc ++ [c])

/-- Go `strings.Split(k, ".")`. -/
def splitOnDot (k : String) : List String :=
  splitDotAux k.data []

/-- Whether the regular expression `disk\.[0-9]+\.key` matches starting at
the head of the char list.  Because a dot is not a digit, the only viable
digit run for `[0-9]+` is the maximal one. -/
def diskKeyAt (cs : List Char) : Bool :=
  if listPreOf "disk.".data cs then
    let rest := cs.drop 5
    let ds := rest.takeWhile Char.isDigit
    !ds.isEmpty && listPreOf ".key".data (rest.drop ds.length)
  else false

/-- Go `regexp.MustCompile("disk\\.[0-9]+\\.key").MatchString k`: the match
is unanchored, so the pattern may start at any position of `k`. -/
def matchesDiskKeyRe (k : String) : Bool :=
  (List.range (k.data.length + 1)).any fun i => diskKeyAt (k.data.drop i)

/-- One hardware device of the fetched snapshot
(`props.Config.Hardware.Device`).  `key` and `controllerKey` are the
`int32` fields of the embedded `VirtualDevice`; `scsiBus` is `some b`
exactly when the device type-asserts to `types.BaseVirtualSCSIController`
with `BusNumber b` (also an `int32`). -/
structure Device where
  key : Int
  controllerKey : Int
  scsiBus : Option Int
deriving DecidableEq

/-- govmomi `VirtualDeviceList.FindByKey`: first device with the key, or nil. -/
def findByKey (l : List Device) (k : Int) : Option Device :=
  match l with
  | [] => none
  | d :: rest => if d.key = k then some d else findByKey rest k

/-- Opaque handle returned by `virtualmachine.FromUUID`. -/
abbrev VMHandle := Nat

/-- The external collaborators of the v1-to-v2 step, specified at their
interface boundary: UUID resolution, property fetch (only the hardware
device list is consumed), the disk import routine (given the
`scsi_controller_count` hint set on the fresh working context plus the
device list, it either fails or populates disk attributes on that scratch
context), and the rendered schema defaults `fmt.Sprintf("%v", rs[f].Default)`. -/
structure Env where
  fromUUID : String → Except String VMHandle
  properties : VMHandle → Except String (List Device)
  diskImport : Int → List Device → Except String Attrs
  schemaDefault : String → String

/-- The device-to-controller chain of the bus scan (lines 102-109 of the
source): find the device by key, follow its controller-key back-reference,
and yield the controller's SCSI bus number; each `continue`-on-nil of the
source (device absent, controller absent, controller not SCSI) is a
`none`. -/
def busCore (l : List Device) (key : Int) : Option Int :=
  (findByKey l key).bind fun device =>
    (findByKey l device.controllerKey).bind fun ctlr => ctlr.scsiBus

/-- Loop body of the bus scan in `migrateVSphereVirtualMachineStateV2`
(lines 95-112 of the source), acting on the running `maxBus`. -/
def busStep (l : List Device) (m : Int) (kv : String × String) : Int :=
  if matchesDiskKeyRe kv.1 then
    let key := atoiGo kv.2
    if key < 1 then m
    else
      match busCore l (toInt32 key) with
      | none => m
      | some bus => if bus > toInt32 m then bus else m
  else m

/-- The whole `for k, v := range is.Attributes` bus scan, starting from the
baseline `diskCnt / 15`. -/
def busScan (attrs : Attrs) (l : List Device) (init : Int) : Int :=
  attrs.foldl (busStep l) init

/-- `fmt.Sprintf("%v", n)` for a Go int. -/
def intToStr (n : Int) : String :=
  toString n

/-- `migrateVSphereVirtualMachineStateV2`: the v1-to-v2 step.  The result
pairs the record as left by the function with the error, modelling the
in-place mutation: every error path in the source returns before touching
the record, so those branches carry the input unchanged.  The scratch
`ResourceData` built for `DiskImportOperation` is external state; its
populated attributes are not copied back into the record by the source. -/
def migrateV2 (env : Env) (is : InstanceState) : InstanceState × Option String :=
  let name := is.id
  let id := lookupGo is.attributes "uuid"
  if id = "" then
    (is, some ("resource ID " ++ name ++ " has no UUID. State cannot be migrated"))
  else
    match env.fromUUID id with
    | .error e => (is, some ("error fetching virtual machine: " ++ e))
    | .ok vm =>
      match env.properties vm with
      | .error e => (is, some ("error fetching virtual machine properties: " ++ e))
      | .ok devices =>
        let diskCnt := atoiGo (lookupGo is.attributes "disk.#")
        let maxBus := busScan is.attributes devices (Int.tdiv diskCnt 15)
        match env.diskImport (maxBus + 1) devices with
        | .error e => (is, some e)
        | .ok _ =>
          let guestNetTimeout :=
            if lookupGo is.attributes "wait_for_guest_net" = "false" then "-1"
            else env.schemaDefault "wait_for_guest_net_timeout"
          let a1 := insertGo [] "imported" "true"
          let a2 := insertGo a1 "scsi_controller_count" (env.schemaDefault "scsi_controller_count")
          let a3 := insertGo a2 "force_power_off" (env.schemaDefault "force_power_off")
          let a4 := insertGo a3 "migrate_wait_timeout" (env.schemaDefault "migrate_wait_timeout")
          let a5 := insertGo a4 "shutdown_wait_timeout" (env.schemaDefault "shutdown_wait_timeout")
          let a6 := insertGo a5 "wait_for_guest_net_timeout" guestNetTimeout
          let a7 := insertGo a6 "scsi_controller_count" (intToStr (maxBus + 1))
          ({ id := id, attributes := a7 }, none)

/-- Loop body of the disk loop in `migrateVSphereVirtualMachineStateV1`
(lines 163-174): filter on prefix "disk." and suffix ".size", split on
dots, require exactly three parts, join the sibling key and set it to
"scsi" when absent (comma-ok check). -/
def v1Step (m : Attrs) (k : String) : Attrs :=
  if goHasPre k "disk." && goHasSuf k ".size" then
    match splitOnDot k with
    | [p0, p1, _] =>
      let s := p0 ++ "." ++ p1 ++ "." ++ "controller_type"
      match lookupGo? m s with
      | some _ => m
      | none => insertGo m s "scsi"
    | _ => m
  else m

/-- The disk loop, iterating the key snapshot `ks`.  Keys added during a Go
map range may or may not be visited; every key this loop adds ends in
".controller_type" and so never matches the ".size" filter, hence the
snapshot choice does not change the result. -/
def v1Fold (ks : List String) (m : Attrs) : Attrs :=
  ks.foldl v1Step m

/-- Filter, split and join portion of the loop body: the sibling
`disk.<index>.controller_type` key derived from `k`, when `k` passes the
filter. -/
def sibOf (k : String) : Option String :=
  if goHasPre k "disk." && goHasSuf k ".size" then
    match splitOnDot k with
    | [p0, p1, _] => some (p0 ++ "." ++ p1 ++ "." ++ "controller_type")
    | _ => none
  else none

/-- First flag block of `migrateVSphereVirtualMachineStateV1` (lines
155-157): default `skip_customization` to "false" when the map reads "". -/
def v1FlagA1 (m : Attrs) : Attrs :=
  if lookupGo m "skip_customization" = "" then insertGo m "skip_customization" "false" else m

/-- Second flag block (lines 159-161): default `enable_disk_uuid` to
"false" when the map, after the first block, reads "". -/
def v1FlagPass (m : Attrs) : Attrs :=
  if lookupGo (v1FlagA1 m) "enable_disk_uuid" = "" then
    insertGo (v1FlagA1 m) "enable_disk_uuid" "false"
  else v1FlagA1 m

/-- `migrateVSphereVirtualMachineStateV1`: the v0-to-v1 step.  The source
guard is `is.Empty() || is.Attributes == nil`; in the list model a nil map
and a map with no entries coincide, so the guard is the emptiness check.
After the two flag blocks the disk loop ranges over the keys of the
resulting map.  The step never returns an error. -/
def migrateV1 (is : InstanceState) : InstanceState × Option String :=
  if is.isEmptyGo then (is, none)
  else
    let a2 := v1FlagPass is.attributes
    ({ is with attributes := v1Fold (keysOf a2) a2 }, none)

/-- `resourceVSphereVirtualMachineMigrateState`: the dispatch loop.  A nil
record maps to `none`; the Go `return nil, err` on a failed step maps to
`(none, some err)`.  The switch selects v1-to-v2 at version 1 and v0-to-v1
at version 0, then recurses with the incremented version; every other
version returns the record as-is. -/
def migrateState (env : Env) (version : Int) (os : Option InstanceState) :
    Option InstanceState × Option String :=
  match os with
  | none => (none, none)
  | some is =>
    if is.isEmptyGo then (some is, none)
    else if h1 : version = 1 then
      match migrateV2 env is with
      | (_, some err) => (none, some err)
      | (is2, none) => migrateState env (version + 1) (some is2)
    else if h0 : version = 0 then
      match migrateV1 is with
      | (_, some err) => (none, some err)
      | (is2, none) => migrateState env (version + 1) (some is2)
    else (some is, none)
termination_by (2 - version).toNat
decreasing_by
  · subst h1; decide
  · subst h0; decide

/-- Rejoin the parts produced by `splitOnDot` with dots, at the char level. -/
def joinData : List String → List Char
  | [] => []
  | [p] => p.data
  | p :: ps => p.data ++ '.' :: joinData ps

/-- Environment used by the concrete witnesses: all collaborators succeed. -/
def envW : Env where
  fromUUID := fun _ => .ok 0
  properties := fun _ => .ok []
  diskImport := fun _ _ => .ok []
  schemaDefault := fun f => "default of " ++ f

/-- Environment used by the concrete witnesses of the error paths: UUID
resolution fails. -/
def envFailW : Env where
  fromUUID := fun _ => .error "connection refused"
  properties := fun _ => .ok []
  diskImport := fun _ _ => .ok []
  schemaDefault := fun _ => ""

/-- Environment whose disk import routine populates a disk attribute on
the scratch context; used to test whether that attribute reaches the
migrated record. -/
def envC3 : Env where
  fromUUID := fun _ => .ok 0
  properties := fun _ => .ok []
  diskImport := fun _ _ => .ok [("disk.0.size", "42")]
  schemaDefault := fun _ => "5"

/-- The signed 32-bit range a Go `int32` value inhabits. -/
def inInt32 (n : Int) : Prop := -(2 ^ 31) ≤ n ∧ n < 2 ^ 31

instance (n : Int) : Decidable (inInt32 n) := by
  unfold inInt32
  exact inferInstance

/-- Modelled from the spec: the claim reads `disk.#` and the `disk.<n>.key`
values as "the integer value of the attribute, treating an unparsable or
absent value as 0" — the mathematical integer, with no machine clamping. -/
def specAtoi (s : String) : Int :=
  (parseIntLit s).getD 0

/-- Modelled from the spec: the bus number an attribute entry contributes
to DerivedBusCount — for a key matching `disk.<index>.key`, parse the
value as a device key (skip non-positive), find the device, follow its
controller-key back-reference, and take the bus number when the controller
is SCSI. -/
def candidateBus (l : List Device) (kv : String × String) : Option Int :=
  if matchesDiskKeyRe kv.1 then
    if specAtoi kv.2 < 1 then none else busCore l (specAtoi kv.2)
  else none

/-- Modelled from the spec: DerivedBusCount is the maximum of the legacy
disk count divided by 15 (integer division) and the highest contributed
SCSI bus number. -/
def derivedBusCountSpec (attrs : Attrs) (l : List Device) : Int :=
  List.foldl max (Int.tdiv (specAtoi (lookupGo attrs "disk.#")) 15)
    (attrs.filterMap (candidateBus l))

theorem lookupGo?_insertGo_self (m : Attrs) (k v : String) :
    lookupGo? (insertGo m k v) k = some v := by
  induction m with
  | nil => simp [insertGo, lookupGo?]
  | cons kv rest ih =>
    obtain ⟨k2, v2⟩ := kv
    by_cases h : k2 = k
    · simp [insertGo, h, lookupGo?]
    · simp [insertGo, h, lookupGo?, ih]

theorem lookupGo?_insertGo_ne (m : Attrs) (k v x : String) (h : x ≠ k) :
    lookupGo? (insertGo m k v) x = lookupGo? m x := by
  have hk : k ≠ x := fun hk => h hk.symm
  induction m with
  | nil => simp [insertGo, lookupGo?, hk]
  | cons kv rest ih =>
    obtain ⟨k2, v2⟩ := kv
    by_cases h2 : k2 = k
    · subst h2
      simp [insertGo, lookupGo?, hk]
    · simp [insertGo, h2, lookupGo?, ih]

theorem insertGo_isEmpty (m : Attrs) (k v : String) :
    (insertGo m k v).isEmpty = false := by
  cases m with
  | nil => simp [insertGo]
  | cons kv rest =>
    obtain ⟨k2, v2⟩ := kv
    by_cases h : k2 = k <;> simp [insertGo, h]

theorem lookupGo?_insertGo_src (m : Attrs) (k v x : String)
    (h : lookupGo? (insertGo m k v) x ≠ none) :
    x = k ∨ lookupGo? m x ≠ none := by
  by_cases hx : x = k
  · exact Or.inl hx
  · exact Or.inr (by rwa [lookupGo?_insertGo_ne m k v x hx] at h)

/-- C1: for every non-nil record whose attribute map is empty, `Migrate`
returns the same record unchanged with no error, for every version, and no
migration step runs (the guard returns before the version switch). -/
theorem migrate_empty_record_unchanged (env : Env) (version : Int) (is : InstanceState)
    (h : is.attributes = []) :
    migrateState env version (some is) = (some is, none) := by
  unfold migrateState
  simp [InstanceState.isEmptyGo, h]

/-- Witness for C1 at a concrete record and version. -/
theorem migrate_empty_record_unchanged_w :
    migrateState envW 7 (some { id := "vm-w", attributes := [] }) =
      (some { id := "vm-w", attributes := [] }, none) :=
  migrate_empty_record_unchanged envW 7 { id := "vm-w", attributes := [] } rfl

/-- C9: for every version with no registered step (any version other than
0 and 1) and every non-empty record, `Migrate` is a fixed point: the
record comes back unchanged with no error. -/
theorem migrate_no_step_fixed_point (env : Env) (version : Int) (is : InstanceState)
    (h0 : version ≠ 0) (h1 : version ≠ 1) (hne : is.attributes ≠ []) :
    migrateState env version (some is) = (some is, none) := by
  unfold migrateState
  simp [InstanceState.isEmptyGo, hne, h0, h1]

/-- Witness for C9 at version 2 and a concrete non-empty record. -/
theorem migrate_no_step_fixed_point_w :
    migrateState envW 2 (some { id := "vm-w", attributes := [("uuid", "U")] }) =
      (some { id := "vm-w", attributes := [("uuid", "U")] }, none) :=
  migrate_no_step_fixed_point envW 2 { id := "vm-w", attributes := [("uuid", "U")] }
    (by decide) (by decide) (by decide)

/-- C4: when the `uuid` attribute is absent or empty, the v1-to-v2 step
fails with an error naming the current record id, the record is left with
its id and attributes exactly as on entry, and no collaborator is invoked:
the result is the same for every environment. -/
theorem v2_missing_uuid_fails_unchanged (env : Env) (is : InstanceState)
    (h : lookupGo is.attributes "uuid" = "") :
    migrateV2 env is =
      (is, some ("resource ID " ++ is.id ++ " has no UUID. State cannot be migrated")) := by
  unfold migrateV2
  simp [h]

/-- Witness for C4 at a concrete record with no `uuid` attribute. -/
theorem v2_missing_uuid_fails_unchanged_w :
    migrateV2 envW { id := "vm-old", attributes := [("disk.#", "1")] } =
      ({ id := "vm-old", attributes := [("disk.#", "1")] },
        some "resource ID vm-old has no UUID. State cannot be migrated") :=
  v2_missing_uuid_fails_unchanged envW { id := "vm-old", attributes := [("disk.#", "1")] }
    (by decide)

/-- C5: the v1-to-v2 step is atomic on failure: whenever it returns an
error (missing uuid, failed lookup, failed property fetch, or failed
disk import), the record it leaves behind is exactly the input record. -/
theorem v2_error_leaves_record_unchanged (env : Env) (is : InstanceState)
    (h : (migrateV2 env is).2 ≠ none) :
    (migrateV2 env is).1 = is := by
  by_cases hu : lookupGo is.attributes "uuid" = ""
  · simp [migrateV2, hu]
  · cases hvm : env.fromUUID (lookupGo is.attributes "uuid") with
    | error e => simp [migrateV2, hu, hvm]
    | ok vm =>
      cases hp : env.properties vm with
      | error e => simp [migrateV2, hu, hvm, hp]
      | ok devices =>
        cases hd : env.diskImport
            (busScan is.attributes devices
                (Int.tdiv (atoiGo (lookupGo is.attributes "disk.#")) 15) + 1) devices with
        | error e => simp [migrateV2, hu, hvm, hp, hd]
        | ok imp =>
          exact absurd (by simp [migrateV2, hu, hvm, hp, hd]) h

/-- Witness for C5: a concrete record and a failing lookup environment. -/
theorem v2_error_leaves_record_unchanged_w :
    (migrateV2 envFailW { id := "vm-w", attributes := [("uuid", "U")] }).1 =
      { id := "vm-w", attributes := [("uuid", "U")] } :=
  v2_error_leaves_record_unchanged envFailW { id := "vm-w", attributes := [("uuid", "U")] }
    (by decide)

theorem dataAppend (a b : String) : (a ++ b).data = a.data ++ b.data := by
  cases a; cases b; rfl

theorem listPreOf_self_append (p t : List Char) : listPreOf p (p ++ t) = true := by
  induction p with
  | nil => simp [listPreOf]
  | cons c rest ih => simp [listPreOf, ih]

theorem listPreOf_exists (p l : List Char) (h : listPreOf p l = true) :
    ∃ t, l = p ++ t := by
  induction p generalizing l with
  | nil => exact ⟨l, rfl⟩
  | cons c rest ih =>
    cases l with
    | nil => simp [listPreOf] at h
    | cons b bs =>
      simp only [listPreOf, Bool.and_eq_true, beq_iff_eq] at h
      obtain ⟨rfl, h2⟩ := h
      obtain ⟨t, rfl⟩ := ih bs h2
      exact ⟨t, rfl⟩

theorem splitDotAux_no_dot (cs : List Char) :
    ∀ acc, (∀ c ∈ cs, c ≠ '.') → splitDotAux cs acc = [⟨acc ++ cs⟩] := by
  induction cs with
  | nil => intro acc _; simp [splitDotAux]
  | cons c rest ih =>
    intro acc h
    have hc : c ≠ '.' := h c (by simp)
    rw [splitDotAux, if_neg hc, ih (acc ++ [c]) (fun d hd => h d (by simp [hd]))]
    simp

theorem splitDotAux_dot (cs : List Char) :
    ∀ acc rest, (∀ c ∈ cs, c ≠ '.') →
      splitDotAux (cs ++ '.' :: rest) acc = ⟨acc ++ cs⟩ :: splitDotAux rest [] := by
  induction cs with
  | nil => intro acc rest _; simp [splitDotAux]
  | cons c cs2 ih =>
    intro acc rest h
    have hc : c ≠ '.' := h c (by simp)
    rw [List.cons_append, splitDotAux, if_neg hc,
      ih (acc ++ [c]) rest (fun d hd => h d (by simp [hd]))]
    simp

theorem splitDotAux_ne_nil (cs : List Char) : ∀ acc, splitDotAux cs acc ≠ [] := by
  induction cs with
  | nil => intro acc; simp [splitDotAux]
  | cons c rest ih =>
    intro acc
    rw [splitDotAux]
    by_cases hc : c = '.'
    · simp [hc]
    · rw [if_neg hc]; exact ih (acc ++ [c])

theorem joinData_cons (p : String) (q : String) (ps : List String) :
    joinData (p :: q :: ps) = p.data ++ '.' :: joinData (q :: ps) := rfl

theorem splitDotAux_join (cs : List Char) :
    ∀ acc, (∀ c ∈ acc, c ≠ '.') →
      joinData (splitDotAux cs acc) = acc ++ cs ∧
        ∀ p ∈ splitDotAux cs acc, ∀ c ∈ p.data, c ≠ '.' := by
  induction cs with
  | nil =>
    intro acc hacc
    refine ⟨by simp [splitDotAux, joinData], ?_⟩
    intro p hp
    simp [splitDotAux] at hp
    subst hp
    exact hacc
  | cons c rest ih =>
    intro acc hacc
    by_cases hc : c = '.'
    · subst hc
      rw [splitDotAux, if_pos rfl]
      obtain ⟨hj, hd⟩ := ih [] (by simp)
      constructor
      · obtain ⟨q, qs, hqq⟩ : ∃ q qs, splitDotAux rest ([] : List Char) = q :: qs := by
          cases h2 : splitDotAux rest ([] : List Char) with
          | nil => exact absurd h2 (splitDotAux_ne_nil rest [])
          | cons q qs => exact ⟨q, qs, rfl⟩
        rw [hqq, joinData_cons, ← hqq, hj]
        simp
      · intro p hp
        rcases List.mem_cons.mp hp with hp | hp
        · subst hp; exact hacc
        · exact hd p hp
    · rw [splitDotAux, if_neg hc]
      obtain ⟨hj, hd⟩ := ih (acc ++ [c])
        (by intro d hd2; rcases List.mem_append.mp hd2 with h2 | h2
            · exact hacc d h2
            · simp at h2; simpa [h2] using hc)
      exact ⟨by rw [hj]; simp, hd⟩

theorem dotSplitUnique (as : List Char) :
    ∀ bs xs ys : List Char, (∀ c ∈ as, c ≠ '.') → (∀ c ∈ bs, c ≠ '.') →
      as ++ '.' :: xs = bs ++ '.' :: ys → as = bs ∧ xs = ys := by
  induction as with
  | nil =>
    intro bs xs ys _ hbs h
    cases bs with
    | nil => simpa using h
    | cons b bs2 =>
      simp only [List.nil_append, List.cons_append, List.cons.injEq] at h
      exact absurd h.1.symm (hbs b (by simp))
  | cons a as2 ih =>
    intro bs xs ys has hbs h
    cases bs with
    | nil =>
      simp only [List.nil_append, List.cons_append, List.cons.injEq] at h
      exact absurd h.1 (has a (by simp))
    | cons b bs2 =>
      simp only [List.cons_append, List.cons.injEq] at h
      obtain ⟨rfl, h2⟩ := h
      obtain ⟨h3, h4⟩ := ih bs2 xs ys (fun c hc => has c (by simp [hc]))
        (fun c hc => hbs c (by simp [hc])) h2
      exact ⟨by rw [h3], h4⟩

theorem mkDataEq (s : String) : (⟨s.data⟩ : String) = s := by
  cases s; rfl

theorem key_sib_eq (i : String) :
    "disk" ++ "." ++ i ++ "." ++ "controller_type" = "disk." ++ i ++ ".controller_type" := by
  apply String.ext
  simp [dataAppend]

theorem splitOnDot_form (i : String) (hi : ∀ c ∈ i.data, c ≠ '.') :
    splitOnDot ("disk." ++ i ++ ".size") = ["disk", i, "size"] := by
  have hdata : ("disk." ++ i ++ ".size").data =
      "disk".data ++ '.' :: (i.data ++ '.' :: "size".data) := by
    cases i; rfl
  rw [splitOnDot, hdata, splitDotAux_dot "disk".data [] _ (by decide),
    splitDotAux_dot i.data [] _ hi, splitDotAux_no_dot "size".data [] (by decide)]
  simp [mkDataEq]

theorem goHasPre_diskSize (i : String) :
    goHasPre ("disk." ++ i ++ ".size") "disk." = true := by
  have hdata : ("disk." ++ i ++ ".size").data = "disk.".data ++ (i.data ++ ".size".data) := by
    cases i; rfl
  rw [goHasPre, hdata]
  exact listPreOf_self_append _ _

theorem goHasSuf_diskSize (i : String) :
    goHasSuf ("disk." ++ i ++ ".size") ".size" = true := by
  have hdata : ("disk." ++ i ++ ".size").data = ("disk.".data ++ i.data) ++ ".size".data := by
    simp [dataAppend]
  rw [goHasSuf, hdata, List.reverse_append]
  exact listPreOf_self_append _ _

theorem sibOf_some_of_three (k p0 p1 p2 : String) (hsp : splitOnDot k = [p0, p1, p2])
    (hc : (goHasPre k "disk." && goHasSuf k ".size") = true) :
    sibOf k = some (p0 ++ "." ++ p1 ++ "." ++ "controller_type") := by
  unfold sibOf
  rw [if_pos hc, hsp]

theorem sibOf_diskSizeKey (i : String) (hi : ∀ c ∈ i.data, c ≠ '.') :
    sibOf ("disk." ++ i ++ ".size") = some ("disk." ++ i ++ ".controller_type") := by
  rw [sibOf_some_of_three ("disk." ++ i ++ ".size") "disk" i "size" (splitOnDot_form i hi)
    (by rw [goHasPre_diskSize, goHasSuf_diskSize]; rfl)]
  rw [key_sib_eq]

theorem sibOf_inv (k s : String) (h : sibOf k = some s) :
    ∃ j, (∀ c ∈ j.data, c ≠ '.') ∧ k = "disk." ++ j ++ ".size" ∧
      s = "disk." ++ j ++ ".controller_type" := by
  unfold sibOf at h
  by_cases hc : (goHasPre k "disk." && goHasSuf k ".size") = true
  · rw [if_pos hc] at h
    obtain ⟨hpre, hsuf⟩ := Bool.and_eq_true_iff.mp hc
    cases hsp : splitOnDot k with
    | nil => rw [hsp] at h; exact absurd h (by simp)
    | cons p0 t1 =>
      cases t1 with
      | nil => rw [hsp] at h; exact absurd h (by simp)
      | cons p1 t2 =>
        cases t2 with
        | nil => rw [hsp] at h; exact absurd h (by simp)
        | cons p2 t3 =>
          cases t3 with
          | cons p3 t4 => rw [hsp] at h; exact absurd h (by simp)
          | nil =>
            rw [hsp] at h
            simp only [Option.some.injEq] at h
            obtain ⟨hjoin, hdotfree⟩ := splitDotAux_join k.data [] (by simp)
            rw [show splitDotAux k.data [] = splitOnDot k from rfl, hsp] at hjoin hdotfree
            have hp0 : ∀ c ∈ p0.data, c ≠ '.' := hdotfree p0 (by simp)
            have hp1 : ∀ c ∈ p1.data, c ≠ '.' := hdotfree p1 (by simp)
            have hp2 : ∀ c ∈ p2.data, c ≠ '.' := hdotfree p2 (by simp)
            simp only [List.nil_append] at hjoin
            have hk : k.data = p0.data ++ '.' :: (p1.data ++ '.' :: p2.data) := by
              rw [← hjoin]; rfl
            obtain ⟨t, ht⟩ := listPreOf_exists "disk.".data k.data hpre
            have hd : k.data = "disk".data ++ '.' :: t := by rw [ht]; rfl
            obtain ⟨hp0eq, _⟩ := dotSplitUnique p0.data "disk".data _ t hp0 (by decide)
              (hk.symm.trans hd)
            have hp0s : p0 = "disk" := String.ext hp0eq
            obtain ⟨u, hu⟩ := listPreOf_exists ".size".data.reverse k.data.reverse hsuf
            have hk2 : k.data = (p0.data ++ '.' :: p1.data) ++ '.' :: p2.data := by
              rw [hk]; simp
            have hk3 : k.data.reverse = p2.data.reverse ++ '.' :: (p0.data ++ '.' :: p1.data).reverse := by
              rw [hk2]; simp
            have hu2 : k.data.reverse = "ezis".data ++ '.' :: u := by rw [hu]; rfl
            obtain ⟨hp2rev, _⟩ := dotSplitUnique p2.data.reverse "ezis".data _ u
              (fun c hcm => hp2 c (List.mem_reverse.mp hcm)) (by decide) (hk3.symm.trans hu2)
            have hp2s : p2 = "size" := by
              apply String.ext
              have h5 := congrArg List.reverse hp2rev
              rw [List.reverse_reverse] at h5
              rw [h5]; rfl
            refine ⟨p1, hp1, ?_, ?_⟩
            · apply String.ext
              rw [hk, hp0s, hp2s]
              cases p1; rfl
            · rw [← h, hp0s, key_sib_eq]
  · rw [if_neg hc] at h
    exact absurd h (by simp)

theorem sib_has_dot (k s : String) (h : sibOf k = some s) : '.' ∈ s.data := by
  obtain ⟨j, _, _, rfl⟩ := sibOf_inv k s h
  have : ("disk." ++ j ++ ".controller_type").data =
      "disk.".data ++ (j.data ++ ".controller_type".data) := by cases j; rfl
  rw [this]
  simp

theorem listPreOf_sizeRev_ct (z : List Char) :
    listPreOf ".size".data.reverse (".controller_type".data.reverse ++ z) = false := by
  show listPreOf ['e', 'z', 'i', 's', '.']
    ('e' :: 'p' :: 'y' :: 't' :: '_' :: 'r' :: 'e' :: 'l' :: 'l' :: 'o' :: 'r' :: 't' :: 'n' ::
      'o' :: 'c' :: '.' :: z) = false
  have hzp : (('z' : Char) == 'p') = false := rfl
  simp [listPreOf, hzp]

theorem sibOf_sib_none (k s : String) (h : sibOf k = some s) : sibOf s = none := by
  obtain ⟨j, _, _, rfl⟩ := sibOf_inv k s h
  have h1 : ("disk." ++ j ++ ".controller_type").data =
      ("disk.".data ++ j.data) ++ ".controller_type".data := by
    simp [dataAppend, List.append_assoc]
  have hsuf : goHasSuf ("disk." ++ j ++ ".controller_type") ".size" = false := by
    rw [goHasSuf, h1, List.reverse_append]
    exact listPreOf_sizeRev_ct _
  unfold sibOf
  rw [hsuf]
  simp

theorem v1Step_eq_sib (m : Attrs) (k : String) :
    v1Step m k =
      match sibOf k with
      | none => m
      | some s =>
        match lookupGo? m s with
        | some _ => m
        | none => insertGo m s "scsi" := by
  unfold v1Step sibOf
  by_cases hc : (goHasPre k "disk." && goHasSuf k ".size") = true
  · rw [if_pos hc, if_pos hc]
    cases splitOnDot k with
    | nil => rfl
    | cons p0 t1 =>
      cases t1 with
      | nil => rfl
      | cons p1 t2 =>
        cases t2 with
        | nil => rfl
        | cons p2 t3 =>
          cases t3 with
          | nil => rfl
          | cons p3 t4 => rfl
  · rw [if_neg hc, if_neg hc]

theorem v1Step_sib_none (m : Attrs) (k : String) (hs : sibOf k = none) :
    v1Step m k = m := by
  rw [v1Step_eq_sib, hs]

theorem v1Step_sib_found (m : Attrs) (k s v2 : String) (hs : sibOf k = some s)
    (hl : lookupGo? m s = some v2) : v1Step m k = m := by
  rw [v1Step_eq_sib, hs]
  show (match lookupGo? m s with | some _ => m | none => insertGo m s "scsi") = m
  rw [hl]

theorem v1Step_sib_insert (m : Attrs) (k s : String) (hs : sibOf k = some s)
    (hl : lookupGo? m s = none) : v1Step m k = insertGo m s "scsi" := by
  rw [v1Step_eq_sib, hs]
  show (match lookupGo? m s with | some _ => m | none => insertGo m s "scsi") =
    insertGo m s "scsi"
  rw [hl]

theorem v1Step_pres (m : Attrs) (k x w : String) (h : lookupGo? m x = some w) :
    lookupGo? (v1Step m k) x = some w := by
  cases hs : sibOf k with
  | none => rw [v1Step_sib_none m k hs]; exact h
  | some s =>
    cases hl : lookupGo? m s with
    | some v2 => rw [v1Step_sib_found m k s v2 hs hl]; exact h
    | none =>
      have hxs : x ≠ s := by
        intro he
        rw [he, hl] at h
        exact Option.noConfusion h
      rw [v1Step_sib_insert m k s hs hl, lookupGo?_insertGo_ne m s "scsi" x hxs]
      exact h

theorem v1Step_nonnone (m : Attrs) (k x : String) (h : lookupGo? m x ≠ none) :
    lookupGo? (v1Step m k) x ≠ none := by
  cases hl : lookupGo? m x with
  | none => exact absurd hl h
  | some w => rw [v1Step_pres m k x w hl]; simp

theorem v1Fold_pres (ks : List String) (m : Attrs) (x w : String)
    (h : lookupGo? m x = some w) : lookupGo? (v1Fold ks m) x = some w := by
  induction ks generalizing m with
  | nil => exact h
  | cons a rest ih => exact ih (v1Step m a) (v1Step_pres m a x w h)

theorem v1Fold_nonnone (ks : List String) (m : Attrs) (x : String)
    (h : lookupGo? m x ≠ none) : lookupGo? (v1Fold ks m) x ≠ none := by
  cases hl : lookupGo? m x with
  | none => exact absurd hl h
  | some w => rw [v1Fold_pres ks m x w hl]; simp

theorem v1Step_src (m : Attrs) (k x : String) (h : lookupGo? (v1Step m k) x ≠ none) :
    lookupGo? m x ≠ none ∨ sibOf k = some x := by
  cases hs : sibOf k with
  | none => rw [v1Step_sib_none m k hs] at h; exact Or.inl h
  | some s =>
    cases hl : lookupGo? m s with
    | some v2 => rw [v1Step_sib_found m k s v2 hs hl] at h; exact Or.inl h
    | none =>
      rw [v1Step_sib_insert m k s hs hl] at h
      rcases lookupGo?_insertGo_src m s "scsi" x h with rfl | h2
      · exact Or.inr rfl
      · exact Or.inl h2

theorem v1Fold_src (ks : List String) (m : Attrs) (x : String)
    (h : lookupGo? (v1Fold ks m) x ≠ none) :
    lookupGo? m x ≠ none ∨ ∃ k ∈ ks, sibOf k = some x := by
  induction ks generalizing m with
  | nil => exact Or.inl h
  | cons a rest ih =>
    rcases ih (v1Step m a) h with h2 | ⟨k2, hk2, hs2⟩
    · rcases v1Step_src m a x h2 with h3 | h3
      · exact Or.inl h3
      · exact Or.inr ⟨a, by simp, h3⟩
    · exact Or.inr ⟨k2, by simp [hk2], hs2⟩

theorem v1Step_found_noop (m : Attrs) (k s : String) (hs : sibOf k = some s)
    (h : lookupGo? m s ≠ none) : v1Step m k = m := by
  cases hl : lookupGo? m s with
  | none => exact absurd hl h
  | some v2 => exact v1Step_sib_found m k s v2 hs hl

theorem v1Step_sets (m : Attrs) (k s : String) (hs : sibOf k = some s) :
    lookupGo? (v1Step m k) s ≠ none := by
  cases hl : lookupGo? m s with
  | some v2 => rw [v1Step_sib_found m k s v2 hs hl, hl]; simp
  | none => rw [v1Step_sib_insert m k s hs hl, lookupGo?_insertGo_self]; simp

theorem v1Fold_sets (ks : List String) (k s : String) (hk : k ∈ ks)
    (hs : sibOf k = some s) : ∀ m, lookupGo? (v1Fold ks m) s ≠ none := by
  induction ks with
  | nil => cases hk
  | cons a rest ih =>
    intro m
    rcases List.mem_cons.mp hk with rfl | hk2
    · exact v1Fold_nonnone rest (v1Step m k) s (v1Step_sets m k s hs)
    · exact ih hk2 (v1Step m a)

theorem v1Step_scsiInv (m : Attrs) (k s : String)
    (h : lookupGo? m s = none ∨ lookupGo? m s = some "scsi") :
    lookupGo? (v1Step m k) s = none ∨ lookupGo? (v1Step m k) s = some "scsi" := by
  cases hs : sibOf k with
  | none => rw [v1Step_sib_none m k hs]; exact h
  | some t =>
    cases hl : lookupGo? m t with
    | some v2 => rw [v1Step_sib_found m k t v2 hs hl]; exact h
    | none =>
      rw [v1Step_sib_insert m k t hs hl]
      by_cases hst : s = t
      · subst hst
        exact Or.inr (lookupGo?_insertGo_self m s "scsi")
      · rw [lookupGo?_insertGo_ne m t "scsi" s hst]
        exact h

theorem v1Fold_scsi (ks : List String) (k s : String) (hk : k ∈ ks)
    (hs : sibOf k = some s) :
    ∀ m, (lookupGo? m s = none ∨ lookupGo? m s = some "scsi") →
      lookupGo? (v1Fold ks m) s = some "scsi" := by
  induction ks with
  | nil => cases hk
  | cons a rest ih =>
    intro m hinv
    rcases List.mem_cons.mp hk with rfl | hk2
    · have hstep : lookupGo? (v1Step m k) s = some "scsi" := by
        rcases hinv with hl | hl
        · rw [v1Step_sib_insert m k s hs hl]
          exact lookupGo?_insertGo_self m s "scsi"
        · rw [v1Step_sib_found m k s "scsi" hs hl]
          exact hl
      exact v1Fold_pres rest (v1Step m k) s "scsi" hstep
    · exact ih hk2 (v1Step m a) (v1Step_scsiInv m a s hinv)

theorem v1Fold_noop (ks : List String) (m : Attrs) (h : ∀ k ∈ ks, v1Step m k = m) :
    v1Fold ks m = m := by
  induction ks with
  | nil => rfl
  | cons a rest ih =>
    have ha : v1Step m a = m := h a (by simp)
    show v1Fold rest (v1Step m a) = m
    rw [ha]
    exact ih (fun k hk => h k (by simp [hk]))

theorem v1Step_isEmpty (m : Attrs) (k : String) (h : m.isEmpty = false) :
    (v1Step m k).isEmpty = false := by
  cases hs : sibOf k with
  | none => rw [v1Step_sib_none m k hs]; exact h
  | some s =>
    cases hl : lookupGo? m s with
    | some v2 => rw [v1Step_sib_found m k s v2 hs hl]; exact h
    | none => rw [v1Step_sib_insert m k s hs hl]; exact insertGo_isEmpty m s "scsi"

theorem v1Fold_isEmpty (ks : List String) (m : Attrs) (h : m.isEmpty = false) :
    (v1Fold ks m).isEmpty = false := by
  induction ks generalizing m with
  | nil => exact h
  | cons a rest ih => exact ih (v1Step m a) (v1Step_isEmpty m a h)

theorem keysOf_nonnone (m : Attrs) (k : String) :
    k ∈ keysOf m ↔ lookupGo? m k ≠ none := by
  induction m with
  | nil => simp [keysOf, lookupGo?]
  | cons kv rest ih =>
    obtain ⟨k2, v2⟩ := kv
    by_cases h : k2 = k
    · subst h; simp [keysOf, lookupGo?]
    · have hk : k ≠ k2 := fun hh => h hh.symm
      rw [show keysOf ((k2, v2) :: rest) = k2 :: keysOf rest from rfl, List.mem_cons,
        show lookupGo? ((k2, v2) :: rest) k = lookupGo? rest k from by simp [lookupGo?, h]]
      simp [hk, ih]

theorem insertGo_nonnone (m : Attrs) (k v x : String) (h : lookupGo? m x ≠ none) :
    lookupGo? (insertGo m k v) x ≠ none := by
  by_cases hx : x = k
  · subst hx; rw [lookupGo?_insertGo_self]; simp
  · rw [lookupGo?_insertGo_ne m k v x hx]; exact h

theorem lookupGo?_some_isEmpty (m : Attrs) (x v : String) (h : lookupGo? m x = some v) :
    m.isEmpty = false := by
  cases m with
  | nil => exact Option.noConfusion h
  | cons kv rest => rfl

theorem lookupGo?_of_ne_empty (m : Attrs) (x : String) (h : lookupGo m x ≠ "") :
    lookupGo? m x = some (lookupGo m x) := by
  unfold lookupGo at *
  cases hl : lookupGo? m x with
  | none => rw [hl] at h; simp at h
  | some w => rfl

theorem lookupGo_of_none (m : Attrs) (x : String) (h : lookupGo? m x = none) :
    lookupGo m x = "" := by
  unfold lookupGo
  rw [h]
  rfl

theorem ne_flags_of_dot (s : String) (h : '.' ∈ s.data) :
    s ≠ "skip_customization" ∧ s ≠ "enable_disk_uuid" := by
  constructor
  · intro he; subst he; revert h; decide
  · intro he; subst he; revert h; decide

theorem v1FlagA1_other (m : Attrs) (x : String) (h1 : x ≠ "skip_customization") :
    lookupGo? (v1FlagA1 m) x = lookupGo? m x := by
  by_cases c : lookupGo m "skip_customization" = ""
  · rw [v1FlagA1, if_pos c, lookupGo?_insertGo_ne m _ _ x h1]
  · rw [v1FlagA1, if_neg c]

theorem v1FlagPass_other (m : Attrs) (x : String) (h1 : x ≠ "skip_customization")
    (h2 : x ≠ "enable_disk_uuid") : lookupGo? (v1FlagPass m) x = lookupGo? m x := by
  by_cases c : lookupGo (v1FlagA1 m) "enable_disk_uuid" = ""
  · rw [v1FlagPass, if_pos c, lookupGo?_insertGo_ne _ _ _ x h2, v1FlagA1_other m x h1]
  · rw [v1FlagPass, if_neg c, v1FlagA1_other m x h1]

theorem v1FlagA1_skip (m : Attrs) :
    lookupGo? (v1FlagA1 m) "skip_customization" =
      some (if lookupGo m "skip_customization" = "" then "false"
        else lookupGo m "skip_customization") := by
  by_cases c : lookupGo m "skip_customization" = ""
  · rw [v1FlagA1, if_pos c, if_pos c, lookupGo?_insertGo_self]
  · rw [v1FlagA1, if_neg c, if_neg c]
    exact lookupGo?_of_ne_empty m _ c

theorem v1FlagPass_skip (m : Attrs) :
    lookupGo? (v1FlagPass m) "skip_customization" =
      some (if lookupGo m "skip_customization" = "" then "false"
        else lookupGo m "skip_customization") := by
  have hne : ("skip_customization" : String) ≠ "enable_disk_uuid" := by decide
  by_cases c : lookupGo (v1FlagA1 m) "enable_disk_uuid" = ""
  · rw [v1FlagPass, if_pos c, lookupGo?_insertGo_ne _ _ _ _ hne, v1FlagA1_skip]
  · rw [v1FlagPass, if_neg c, v1FlagA1_skip]

theorem v1FlagPass_enable (m : Attrs) :
    lookupGo? (v1FlagPass m) "enable_disk_uuid" =
      some (if lookupGo m "enable_disk_uuid" = "" then "false"
        else lookupGo m "enable_disk_uuid") := by
  have ha1 : lookupGo? (v1FlagA1 m) "enable_disk_uuid" = lookupGo? m "enable_disk_uuid" :=
    v1FlagA1_other m _ (by decide)
  have ha1g : lookupGo (v1FlagA1 m) "enable_disk_uuid" = lookupGo m "enable_disk_uuid" := by
    unfold lookupGo
    rw [ha1]
  by_cases c : lookupGo m "enable_disk_uuid" = ""
  · rw [v1FlagPass, ha1g, if_pos c, if_pos c, lookupGo?_insertGo_self]
  · rw [v1FlagPass, ha1g, if_neg c, if_neg c, ha1]
    exact lookupGo?_of_ne_empty m _ c

theorem v1FlagPass_src (m : Attrs) (x : String) (h : lookupGo? (v1FlagPass m) x ≠ none) :
    x = "skip_customization" ∨ x = "enable_disk_uuid" ∨ lookupGo? m x ≠ none := by
  by_cases h1 : x = "skip_customization"
  · exact Or.inl h1
  · by_cases h2 : x = "enable_disk_uuid"
    · exact Or.inr (Or.inl h2)
    · rw [v1FlagPass_other m x h1 h2] at h
      exact Or.inr (Or.inr h)

theorem v1FlagPass_nonnone (m : Attrs) (x : String) (h : lookupGo? m x ≠ none) :
    lookupGo? (v1FlagPass m) x ≠ none := by
  by_cases h1 : x = "skip_customization"
  · subst h1; rw [v1FlagPass_skip]; simp
  · by_cases h2 : x = "enable_disk_uuid"
    · subst h2; rw [v1FlagPass_enable]; simp
    · rw [v1FlagPass_other m x h1 h2]; exact h

theorem v1FlagA1_isEmpty (m : Attrs) (h : m.isEmpty = false) :
    (v1FlagA1 m).isEmpty = false := by
  by_cases c : lookupGo m "skip_customization" = ""
  · rw [v1FlagA1, if_pos c]; exact insertGo_isEmpty m _ _
  · rw [v1FlagA1, if_neg c]; exact h

theorem v1FlagPass_isEmpty (m : Attrs) (h : m.isEmpty = false) :
    (v1FlagPass m).isEmpty = false := by
  by_cases c : lookupGo (v1FlagA1 m) "enable_disk_uuid" = ""
  · rw [v1FlagPass, if_pos c]; exact insertGo_isEmpty _ _ _
  · rw [v1FlagPass, if_neg c]; exact v1FlagA1_isEmpty m h

theorem v1FlagPass_id (m : Attrs) (h1 : lookupGo m "skip_customization" ≠ "")
    (h2 : lookupGo m "enable_disk_uuid" ≠ "") : v1FlagPass m = m := by
  have ha1 : v1FlagA1 m = m := by rw [v1FlagA1, if_neg h1]
  rw [v1FlagPass, ha1, if_neg h2]

theorem migrateV1_empty_eq (is : InstanceState) (h : is.attributes.isEmpty = true) :
    migrateV1 is = (is, none) := by
  simp [migrateV1, InstanceState.isEmptyGo, h]

theorem migrateV1_attrs_eq (is : InstanceState) (h : is.attributes.isEmpty = false) :
    (migrateV1 is).1 =
      { is with attributes :=
          v1Fold (keysOf (v1FlagPass is.attributes)) (v1FlagPass is.attributes) } := by
  simp [migrateV1, InstanceState.isEmptyGo, h]

/-- C7 counterexample: a record where `skip_customization` is already set,
to the empty string.  The claim says an attribute already set to any value
is left untouched, but the step rewrites it to "false", because the source
reads the flag by plain map indexing and so cannot distinguish an absent
key from a stored empty string. -/
theorem v1_flag_counterexample :
    lookupGo? [("skip_customization", "")] "skip_customization" = some "" ∧
    lookupGo?
        (migrateV1 { id := "vm-c7", attributes := [("skip_customization", "")] }).1.attributes
        "skip_customization" = some "false" := by
  constructor
  · rfl
  · decide

/-- C7 (amended): for a record with at least one attribute, the v0-to-v1
step sets `skip_customization` and `enable_disk_uuid` to "false" when the
attribute is absent or holds the empty string, and keeps the stored value
whenever it is any non-empty string. -/
theorem v1_flag_defaulted (is : InstanceState) (a : String)
    (hne : is.attributes.isEmpty = false)
    (ha : a = "skip_customization" ∨ a = "enable_disk_uuid") :
    lookupGo? (migrateV1 is).1.attributes a =
      some (if lookupGo is.attributes a = "" then "false" else lookupGo is.attributes a) := by
  rw [migrateV1_attrs_eq is hne]
  rcases ha with rfl | rfl
  · exact v1Fold_pres _ _ _ _ (v1FlagPass_skip is.attributes)
  · exact v1Fold_pres _ _ _ _ (v1FlagPass_enable is.attributes)

/-- Witness for the amended C7: a stored non-empty value survives. -/
theorem v1_flag_defaulted_w :
    lookupGo?
        (migrateV1 { id := "vm-w7", attributes := [("skip_customization", "x")] }).1.attributes
        "skip_customization" = some "x" :=
  v1_flag_defaulted { id := "vm-w7", attributes := [("skip_customization", "x")] }
    "skip_customization" (by decide) (Or.inl rfl)

/-- C6: for every attribute key of the form `disk.<index>.size` (exactly
three dot-separated parts), the v0-to-v1 step sets the sibling key
`disk.<index>.controller_type` to "scsi" when absent and keeps its stored
value when present; and every key of the output map is a key of the input,
one of the two defaulted flags, or a `disk.<j>.controller_type` sibling of
a `disk.<j>.size` key of the input — keys of any other shape produce no
sibling. -/
theorem v1_disk_size_sibling (is : InstanceState) (i v x : String)
    (hi : ∀ c ∈ i.data, c ≠ '.')
    (hmem : lookupGo? is.attributes ("disk." ++ i ++ ".size") = some v)
    (hx : lookupGo? (migrateV1 is).1.attributes x ≠ none) :
    lookupGo? (migrateV1 is).1.attributes ("disk." ++ i ++ ".controller_type") =
      some ((lookupGo? is.attributes ("disk." ++ i ++ ".controller_type")).getD "scsi") ∧
    (lookupGo? is.attributes x ≠ none ∨ x = "skip_customization" ∨ x = "enable_disk_uuid" ∨
      ∃ j, (∀ c ∈ j.data, c ≠ '.') ∧
        lookupGo? is.attributes ("disk." ++ j ++ ".size") ≠ none ∧
        x = "disk." ++ j ++ ".controller_type") := by
  have hne : is.attributes.isEmpty = false := lookupGo?_some_isEmpty _ _ _ hmem
  have hsib : sibOf ("disk." ++ i ++ ".size") = some ("disk." ++ i ++ ".controller_type") :=
    sibOf_diskSizeKey i hi
  have hkP : lookupGo? (v1FlagPass is.attributes) ("disk." ++ i ++ ".size") ≠ none :=
    v1FlagPass_nonnone _ _ (by rw [hmem]; simp)
  have hkmem : ("disk." ++ i ++ ".size") ∈ keysOf (v1FlagPass is.attributes) :=
    (keysOf_nonnone _ _).mpr hkP
  have hnf := ne_flags_of_dot _ (sib_has_dot _ _ hsib)
  have hOther : lookupGo? (v1FlagPass is.attributes) ("disk." ++ i ++ ".controller_type") =
      lookupGo? is.attributes ("disk." ++ i ++ ".controller_type") :=
    v1FlagPass_other _ _ hnf.1 hnf.2
  rw [migrateV1_attrs_eq is hne] at hx ⊢
  constructor
  · cases hsibm : lookupGo? is.attributes ("disk." ++ i ++ ".controller_type") with
    | none =>
      exact v1Fold_scsi _ _ _ hkmem hsib _ (Or.inl (by rw [hOther, hsibm]))
    | some w =>
      exact v1Fold_pres _ _ _ _ (by rw [hOther, hsibm]; rfl)
  · rcases v1Fold_src _ _ _ hx with hP | ⟨k2, hk2mem, hs2⟩
    · rcases v1FlagPass_src _ _ hP with h1 | h2 | h3
      · exact Or.inr (Or.inl h1)
      · exact Or.inr (Or.inr (Or.inl h2))
      · exact Or.inl h3
    · have hk2P : lookupGo? (v1FlagPass is.attributes) k2 ≠ none :=
        (keysOf_nonnone _ _).mp hk2mem
      rcases v1FlagPass_src _ _ hk2P with h1 | h2 | h3
      · have hnone : sibOf "skip_customization" = none := by decide
        rw [h1, hnone] at hs2
        exact Option.noConfusion hs2
      · have hnone : sibOf "enable_disk_uuid" = none := by decide
        rw [h2, hnone] at hs2
        exact Option.noConfusion hs2
      · obtain ⟨j, hj, hk2eq, hxeq⟩ := sibOf_inv k2 x hs2
        refine Or.inr (Or.inr (Or.inr ⟨j, hj, ?_, hxeq⟩))
        rw [← hk2eq]
        exact h3

/-- Witness for C6: the sibling of `disk.0.size` is created, and the new
key is accounted for by the sibling clause of the key characterization. -/
theorem v1_disk_size_sibling_w :
    lookupGo? (migrateV1 { id := "vm-w6", attributes := [("disk.0.size", "10")] }).1.attributes
        ("disk." ++ "0" ++ ".controller_type") =
      some ((lookupGo? [("disk.0.size", "10")] ("disk." ++ "0" ++ ".controller_type")).getD
        "scsi") ∧
    (lookupGo? [("disk.0.size", "10")] "disk.0.controller_type" ≠ none ∨
      "disk.0.controller_type" = "skip_customization" ∨
      "disk.0.controller_type" = "enable_disk_uuid" ∨
      ∃ j, (∀ c ∈ j.data, c ≠ '.') ∧
        lookupGo? [("disk.0.size", "10")] ("disk." ++ j ++ ".size") ≠ none ∧
        "disk.0.controller_type" = "disk." ++ j ++ ".controller_type") :=
  v1_disk_size_sibling { id := "vm-w6", attributes := [("disk.0.size", "10")] } "0" "10"
    "disk.0.controller_type" (by decide) (by decide) (by decide)

/-- C8: the v0-to-v1 step is idempotent — applying it twice yields the
same attribute map as applying it once, for every record. -/
theorem v1_step_idempotent (is : InstanceState) :
    (migrateV1 (migrateV1 is).1).1.attributes = (migrateV1 is).1.attributes := by
  cases hE : is.attributes.isEmpty with
  | true => simp [migrateV1_empty_eq is hE]
  | false =>
    have h1 := migrateV1_attrs_eq is hE
    set P := v1FlagPass is.attributes with hP
    set A3 := v1Fold (keysOf P) P with hA3
    have hA3ne : A3.isEmpty = false := v1Fold_isEmpty _ _ (v1FlagPass_isEmpty _ hE)
    have hskip : lookupGo? A3 "skip_customization" =
        some (if lookupGo is.attributes "skip_customization" = "" then "false"
          else lookupGo is.attributes "skip_customization") :=
      v1Fold_pres _ _ _ _ (v1FlagPass_skip is.attributes)
    have hskipNe : lookupGo A3 "skip_customization" ≠ "" := by
      unfold lookupGo
      rw [hskip]
      by_cases c : lookupGo is.attributes "skip_customization" = ""
      · rw [if_pos c]; simp
      · rw [if_neg c]; simpa using c
    have henable : lookupGo? A3 "enable_disk_uuid" =
        some (if lookupGo is.attributes "enable_disk_uuid" = "" then "false"
          else lookupGo is.attributes "enable_disk_uuid") :=
      v1Fold_pres _ _ _ _ (v1FlagPass_enable is.attributes)
    have henableNe : lookupGo A3 "enable_disk_uuid" ≠ "" := by
      unfold lookupGo
      rw [henable]
      by_cases c : lookupGo is.attributes "enable_disk_uuid" = ""
      · rw [if_pos c]; simp
      · rw [if_neg c]; simpa using c
    have hpass2 : v1FlagPass A3 = A3 := v1FlagPass_id A3 hskipNe henableNe
    have hnoop : ∀ k ∈ keysOf A3, v1Step A3 k = A3 := by
      intro k hk
      have hkA3 : lookupGo? A3 k ≠ none := (keysOf_nonnone _ _).mp hk
      cases hsib : sibOf k with
      | none => exact v1Step_sib_none A3 k hsib
      | some s =>
        rcases v1Fold_src (keysOf P) P k hkA3 with hPk | ⟨k2, hk2, hs2⟩
        · have hkmem : k ∈ keysOf P := (keysOf_nonnone _ _).mpr hPk
          exact v1Step_found_noop A3 k s hsib (v1Fold_sets (keysOf P) k s hkmem hsib P)
        · have hcontra : sibOf k = none := sibOf_sib_none k2 k hs2
          rw [hcontra] at hsib
          exact Option.noConfusion hsib
    have h2 := migrateV1_attrs_eq { is with attributes := A3 } hA3ne
    have h3 : (migrateV1 { is with attributes := A3 }).1.attributes =
        v1Fold (keysOf (v1FlagPass A3)) (v1FlagPass A3) := by
      rw [h2]
    calc (migrateV1 (migrateV1 is).1).1.attributes
        = (migrateV1 { is with attributes := A3 }).1.attributes := by rw [h1]
      _ = v1Fold (keysOf (v1FlagPass A3)) (v1FlagPass A3) := h3
      _ = v1Fold (keysOf A3) A3 := by rw [hpass2]
      _ = A3 := v1Fold_noop _ _ hnoop
      _ = (migrateV1 is).1.attributes := by rw [h1]

theorem clamp64_id (n : Int) (h1 : -(2 ^ 63) ≤ n) (h2 : n < 2 ^ 63) : clamp64 n = n := by
  unfold clamp64
  have hmin : min (2 ^ 63 - 1) n = n := min_eq_right (by omega)
  rw [hmin]
  exact max_eq_right h1

theorem atoi_eq_spec (s : String) (h1 : -(2 ^ 63) ≤ specAtoi s) (h2 : specAtoi s < 2 ^ 63) :
    atoiGo s = specAtoi s := by
  unfold atoiGo specAtoi at *
  cases hp : parseIntLit s with
  | none => rfl
  | some n =>
    rw [hp] at h1 h2
    exact clamp64_id n h1 h2

theorem atoi_lt_one (s : String) (h : specAtoi s < 1) : atoiGo s < 1 := by
  unfold atoiGo specAtoi at *
  cases hp : parseIntLit s with
  | none => show (0 : Int) < 1; decide
  | some n =>
    rw [hp] at h
    show clamp64 n < 1
    have hn : n < 1 := h
    unfold clamp64
    omega

theorem toInt32_id (n : Int) (h : inInt32 n) : toInt32 n = n := by
  obtain ⟨ha, hb⟩ := h
  unfold toInt32
  have h0 : (0 : Int) ≤ n + 2 ^ 31 := by omega
  have h1 : n + 2 ^ 31 < 2 ^ 32 := by omega
  rw [Int.emod_eq_of_lt h0 h1]
  omega

theorem findByKey_mem (l : List Device) (k : Int) (d : Device) (h : findByKey l k = some d) :
    d ∈ l := by
  induction l with
  | nil => exact Option.noConfusion h
  | cons e rest ih =>
    by_cases he : e.key = k
    · rw [findByKey, if_pos he] at h
      simp [← Option.some.inj h]
    · rw [findByKey, if_neg he] at h
      simp [ih h]

theorem busCore_some (l : List Device) (key b : Int) (h : busCore l key = some b) :
    ∃ d ∈ l, d.scsiBus = some b := by
  unfold busCore at h
  rw [Option.bind_eq_some] at h
  obtain ⟨device, hfd, h⟩ := h
  rw [Option.bind_eq_some] at h
  obtain ⟨ctlr, hfc, h⟩ := h
  exact ⟨ctlr, findByKey_mem l device.controllerKey ctlr hfc, h⟩

theorem candidateBus_inInt32 (l : List Device) (kv : String × String) (b : Int)
    (hdev : ∀ d ∈ l, inInt32 d.key ∧ inInt32 d.controllerKey ∧
      ∀ bn, d.scsiBus = some bn → inInt32 bn)
    (h : candidateBus l kv = some b) : inInt32 b := by
  unfold candidateBus at h
  by_cases hm : matchesDiskKeyRe kv.1 = true
  · rw [if_pos hm] at h
    by_cases hk : specAtoi kv.2 < 1
    · rw [if_pos hk] at h; exact Option.noConfusion h
    · rw [if_neg hk] at h
      obtain ⟨d, hd, hb⟩ := busCore_some l (specAtoi kv.2) b h
      exact (hdev d hd).2.2 b hb
  · rw [if_neg hm] at h
    exact Option.noConfusion h

theorem ite_gt_max (a b : Int) : (if b > a then b else a) = max a b := by
  rcases le_or_lt b a with h | h
  · rw [if_neg (not_lt.mpr h), max_eq_left h]
  · rw [if_pos h, max_eq_right h.le]

theorem busStep_eq_match (l : List Device) (a : Int) (kv : String × String)
    (ha : inInt32 a)
    (hkv : matchesDiskKeyRe kv.1 = true → specAtoi kv.2 < 2 ^ 31) :
    busStep l a kv =
      match candidateBus l kv with
      | none => a
      | some b => max a b := by
  unfold busStep candidateBus
  by_cases hm : matchesDiskKeyRe kv.1 = true
  · rw [if_pos hm, if_pos hm]
    have hps : specAtoi kv.2 < 2 ^ 31 := hkv hm
    by_cases hk : specAtoi kv.2 < 1
    · have hak : atoiGo kv.2 < 1 := atoi_lt_one kv.2 hk
      rw [if_pos hak, if_pos hk]
    · have hae : atoiGo kv.2 = specAtoi kv.2 :=
        atoi_eq_spec kv.2 (by omega) (by omega)
      rw [hae, if_neg hk, if_neg hk, toInt32_id (specAtoi kv.2) ⟨by omega, hps⟩]
      cases hbc : busCore l (specAtoi kv.2) with
      | none => rfl
      | some bus =>
        show (if bus > toInt32 a then bus else a) = max a bus
        rw [toInt32_id a ha]
        exact ite_gt_max a bus
  · rw [if_neg hm, if_neg hm]

theorem busStep_eq_none (l : List Device) (a : Int) (kv : String × String)
    (ha : inInt32 a) (hkv : matchesDiskKeyRe kv.1 = true → specAtoi kv.2 < 2 ^ 31)
    (hc : candidateBus l kv = none) : busStep l a kv = a := by
  rw [busStep_eq_match l a kv ha hkv, hc]

theorem busStep_eq_some (l : List Device) (a b : Int) (kv : String × String)
    (ha : inInt32 a) (hkv : matchesDiskKeyRe kv.1 = true → specAtoi kv.2 < 2 ^ 31)
    (hc : candidateBus l kv = some b) : busStep l a kv = max a b := by
  rw [busStep_eq_match l a kv ha hkv, hc]

theorem busScan_spec (attrs : Attrs) (l : List Device)
    (hdev : ∀ d ∈ l, inInt32 d.key ∧ inInt32 d.controllerKey ∧
      ∀ bn, d.scsiBus = some bn → inInt32 bn) :
    ∀ a, inInt32 a →
      (∀ kv ∈ attrs, matchesDiskKeyRe kv.1 = true → specAtoi kv.2 < 2 ^ 31) →
      busScan attrs l a = List.foldl max a (attrs.filterMap (candidateBus l)) := by
  induction attrs with
  | nil => intro a _ _; rfl
  | cons kv rest ih =>
    intro a ha hkeys
    show busScan rest l (busStep l a kv) =
      List.foldl max a (List.filterMap (candidateBus l) (kv :: rest))
    rw [List.filterMap_cons]
    cases hc : candidateBus l kv with
    | none =>
      rw [busStep_eq_none l a kv ha (hkeys kv (by simp)) hc]
      exact ih a ha (fun kv2 h2 => hkeys kv2 (by simp [h2]))
    | some b =>
      have hb := candidateBus_inInt32 l kv b hdev hc
      have hmax : inInt32 (max a b) :=
        ⟨le_trans ha.1 (le_max_left a b), max_lt ha.2 hb.2⟩
      rw [busStep_eq_some l a b kv ha (hkeys kv (by simp)) hc]
      exact ih (max a b) hmax (fun kv2 h2 => hkeys kv2 (by simp [h2]))

theorem insertChain (dscsi dforce dmig dshut g s2 : String) :
    insertGo (insertGo (insertGo (insertGo (insertGo (insertGo (insertGo [] "imported" "true")
      "scsi_controller_count" dscsi) "force_power_off" dforce) "migrate_wait_timeout" dmig)
      "shutdown_wait_timeout" dshut) "wait_for_guest_net_timeout" g)
      "scsi_controller_count" s2 =
    [("imported", "true"), ("scsi_controller_count", s2), ("force_power_off", dforce),
      ("migrate_wait_timeout", dmig), ("shutdown_wait_timeout", dshut),
      ("wait_for_guest_net_timeout", g)] := by
  rfl

theorem migrateV2_ok (env : Env) (is : InstanceState) (vm : VMHandle) (devices : List Device)
    (hu : ¬lookupGo is.attributes "uuid" = "")
    (hvm : env.fromUUID (lookupGo is.attributes "uuid") = .ok vm)
    (hpr : env.properties vm = .ok devices)
    (hdi : ∀ n, ∃ imp, env.diskImport n devices = .ok imp) :
    migrateV2 env is =
      ({ id := lookupGo is.attributes "uuid",
         attributes :=
           [("imported", "true"),
             ("scsi_controller_count",
               intToStr (busScan is.attributes devices
                 (Int.tdiv (atoiGo (lookupGo is.attributes "disk.#")) 15) + 1)),
             ("force_power_off", env.schemaDefault "force_power_off"),
             ("migrate_wait_timeout", env.schemaDefault "migrate_wait_timeout"),
             ("shutdown_wait_timeout", env.schemaDefault "shutdown_wait_timeout"),
             ("wait_for_guest_net_timeout",
               if lookupGo is.attributes "wait_for_guest_net" = "false" then "-1"
               else env.schemaDefault "wait_for_guest_net_timeout")] }, none) := by
  obtain ⟨imp, himp⟩ :=
    hdi (busScan is.attributes devices
      (Int.tdiv (atoiGo (lookupGo is.attributes "disk.#")) 15) + 1)
  simp only [migrateV2, hvm, hpr, himp, if_neg hu]
  rw [insertChain]

/-- CX helper: looking up `scsi_controller_count` in the rebuilt list. -/
theorem lookupRebuilt_scsi (v2 v3 v4 v5 v6 : String) :
    lookupGo? [("imported", "true"), ("scsi_controller_count", v2), ("force_power_off", v3),
      ("migrate_wait_timeout", v4), ("shutdown_wait_timeout", v5),
      ("wait_for_guest_net_timeout", v6)] "scsi_controller_count" = some v2 := by
  rw [lookupGo?, if_neg (by decide), lookupGo?, if_pos rfl]

/-- CX helper: looking up `wait_for_guest_net_timeout` in the rebuilt list. -/
theorem lookupRebuilt_waitnet (v2 v3 v4 v5 v6 : String) :
    lookupGo? [("imported", "true"), ("scsi_controller_count", v2), ("force_power_off", v3),
      ("migrate_wait_timeout", v4), ("shutdown_wait_timeout", v5),
      ("wait_for_guest_net_timeout", v6)] "wait_for_guest_net_timeout" = some v6 := by
  rw [lookupGo?, if_neg (by decide), lookupGo?, if_neg (by decide), lookupGo?,
    if_neg (by decide), lookupGo?, if_neg (by decide), lookupGo?, if_neg (by decide),
    lookupGo?, if_pos rfl]

/-- C2: on the successful v1-to-v2 path, and for inputs in the 32-bit
range the device model guarantees (device keys, controller keys and bus
numbers are `int32`; the disk-count baseline and parsed key values fit in
`int32`), the derived bus count equals the maximum of the disk count
divided by 15 and the highest SCSI bus reached by the `disk.<n>.key`
chain, and the final `scsi_controller_count` attribute is that maximum
plus one. -/
theorem v2_scsi_count_is_max (env : Env) (is : InstanceState) (vm : VMHandle)
    (devices : List Device)
    (hu : ¬lookupGo is.attributes "uuid" = "")
    (hvm : env.fromUUID (lookupGo is.attributes "uuid") = .ok vm)
    (hpr : env.properties vm = .ok devices)
    (hdi : ∀ n, ∃ imp, env.diskImport n devices = .ok imp)
    (hdev : ∀ d ∈ devices, inInt32 d.key ∧ inInt32 d.controllerKey ∧
      ∀ bn, d.scsiBus = some bn → inInt32 bn)
    (h64a : -(2 ^ 63) ≤ specAtoi (lookupGo is.attributes "disk.#"))
    (h64b : specAtoi (lookupGo is.attributes "disk.#") < 2 ^ 63)
    (hbase : inInt32 (Int.tdiv (specAtoi (lookupGo is.attributes "disk.#")) 15))
    (hkeys : ∀ kv ∈ is.attributes, matchesDiskKeyRe kv.1 = true → specAtoi kv.2 < 2 ^ 31) :
    lookupGo? (migrateV2 env is).1.attributes "scsi_controller_count" =
      some (intToStr (derivedBusCountSpec is.attributes devices + 1)) ∧
    (migrateV2 env is).2 = none := by
  have hae : atoiGo (lookupGo is.attributes "disk.#") =
      specAtoi (lookupGo is.attributes "disk.#") := atoi_eq_spec _ h64a h64b
  have hscan : busScan is.attributes devices
      (Int.tdiv (atoiGo (lookupGo is.attributes "disk.#")) 15) =
      derivedBusCountSpec is.attributes devices := by
    unfold derivedBusCountSpec
    rw [hae]
    exact busScan_spec is.attributes devices hdev _ hbase hkeys
  rw [migrateV2_ok env is vm devices hu hvm hpr hdi]
  exact ⟨by rw [lookupRebuilt_scsi, hscan], rfl⟩

/-- Witness for C2: the spec example `disk.# = "20"` with no reachable
SCSI controller gives a bus count of 20 / 15 = 1, so the final
`scsi_controller_count` is "2". -/
theorem v2_scsi_count_is_max_w :
    lookupGo?
        ((migrateV2 envW
          { id := "vm-w2", attributes := [("uuid", "abc"), ("disk.#", "20")] }).1.attributes)
        "scsi_controller_count" = some "2" ∧
    (migrateV2 envW { id := "vm-w2", attributes := [("uuid", "abc"), ("disk.#", "20")] }).2 =
      none :=
  v2_scsi_count_is_max envW { id := "vm-w2", attributes := [("uuid", "abc"), ("disk.#", "20")] }
    0 [] (by decide) rfl rfl (fun n => ⟨[], rfl⟩) (by simp) (by decide) (by decide) (by decide)
    (by decide)

/-- C3 counterexample: an environment whose disk import routine populates
`disk.0.size` on the working context.  The migration succeeds, yet the
record's final attribute map does not contain that disk attribute —
the import routine writes to a scratch context that the source never copies
back into the record. -/
theorem v2_disk_attrs_counterexample :
    envC3.diskImport 1 [] = Except.ok [("disk.0.size", "42")] ∧
    (migrateV2 envC3 { id := "vm-c3", attributes := [("uuid", "U")] }).2 = none ∧
    lookupGo? (migrateV2 envC3 { id := "vm-c3", attributes := [("uuid", "U")] }).1.attributes
      "disk.0.size" = none := by
  refine ⟨rfl, ?_, ?_⟩ <;> decide

/-- C3 (amended): after a successful v1-to-v2 migration the record's final
attribute map holds exactly the six explicitly set fields (imported,
scsi_controller_count, force_power_off, migrate_wait_timeout,
shutdown_wait_timeout, wait_for_guest_net_timeout); the attributes the
disk-import routine populates live on a separate scratch context used for
validation and are not copied into the record. -/
theorem v2_rebuild_exact_fields (env : Env) (is : InstanceState) (vm : VMHandle)
    (devices : List Device)
    (hu : ¬lookupGo is.attributes "uuid" = "")
    (hvm : env.fromUUID (lookupGo is.attributes "uuid") = .ok vm)
    (hpr : env.properties vm = .ok devices)
    (hdi : ∀ n, ∃ imp, env.diskImport n devices = .ok imp) :
    (migrateV2 env is).1.attributes =
      [("imported", "true"),
        ("scsi_controller_count",
          intToStr (busScan is.attributes devices
            (Int.tdiv (atoiGo (lookupGo is.attributes "disk.#")) 15) + 1)),
        ("force_power_off", env.schemaDefault "force_power_off"),
        ("migrate_wait_timeout", env.schemaDefault "migrate_wait_timeout"),
        ("shutdown_wait_timeout", env.schemaDefault "shutdown_wait_timeout"),
        ("wait_for_guest_net_timeout",
          if lookupGo is.attributes "wait_for_guest_net" = "false" then "-1"
          else env.schemaDefault "wait_for_guest_net_timeout")] ∧
    (migrateV2 env is).1.id = lookupGo is.attributes "uuid" ∧
    (migrateV2 env is).2 = none := by
  rw [migrateV2_ok env is vm devices hu hvm hpr hdi]
  exact ⟨rfl, rfl, rfl⟩

/-- Witness for the amended C3 at a concrete record and environment. -/
theorem v2_rebuild_exact_fields_w :
    (migrateV2 envC3 { id := "vm-w3", attributes := [("uuid", "U")] }).1.attributes =
      [("imported", "true"), ("scsi_controller_count", "1"), ("force_power_off", "5"),
        ("migrate_wait_timeout", "5"), ("shutdown_wait_timeout", "5"),
        ("wait_for_guest_net_timeout", "5")] ∧
    (migrateV2 envC3 { id := "vm-w3", attributes := [("uuid", "U")] }).1.id = "U" ∧
    (migrateV2 envC3 { id := "vm-w3", attributes := [("uuid", "U")] }).2 = none :=
  v2_rebuild_exact_fields envC3 { id := "vm-w3", attributes := [("uuid", "U")] } 0 []
    (by decide) rfl rfl (fun n => ⟨[("disk.0.size", "42")], rfl⟩)

/-- C10: on the successful v1-to-v2 path, provided the schema default for
`wait_for_guest_net_timeout` is not itself "-1", the new timeout attribute
is "-1" exactly when the legacy `wait_for_guest_net` attribute is the
literal string "false"; for every other value of the legacy attribute,
absent included, it is the schema default. -/
theorem v2_guest_net_timeout (env : Env) (is : InstanceState) (vm : VMHandle)
    (devices : List Device)
    (hu : ¬lookupGo is.attributes "uuid" = "")
    (hvm : env.fromUUID (lookupGo is.attributes "uuid") = .ok vm)
    (hpr : env.properties vm = .ok devices)
    (hdi : ∀ n, ∃ imp, env.diskImport n devices = .ok imp)
    (hdef : env.schemaDefault "wait_for_guest_net_timeout" ≠ "-1") :
    (lookupGo? (migrateV2 env is).1.attributes "wait_for_guest_net_timeout" = some "-1" ↔
      lookupGo is.attributes "wait_for_guest_net" = "false") ∧
    (lookupGo is.attributes "wait_for_guest_net" ≠ "false" →
      lookupGo? (migrateV2 env is).1.attributes "wait_for_guest_net_timeout" =
        some (env.schemaDefault "wait_for_guest_net_timeout")) := by
  rw [migrateV2_ok env is vm devices hu hvm hpr hdi]
  constructor
  · rw [lookupRebuilt_waitnet]
    constructor
    · intro h
      by_cases c : lookupGo is.attributes "wait_for_guest_net" = "false"
      · exact c
      · rw [if_neg c] at h
        exact absurd (Option.some.inj h) hdef
    · intro c
      rw [if_pos c]
  · intro c
    rw [lookupRebuilt_waitnet, if_neg c]

/-- Witness for C10: with the legacy flag stored as "false" the timeout
becomes the sentinel "-1". -/
theorem v2_guest_net_timeout_w :
    (lookupGo?
        ((migrateV2 envW
          { id := "vm-w10",
            attributes := [("uuid", "U"), ("wait_for_guest_net", "false")] }).1.attributes)
        "wait_for_guest_net_timeout" = some "-1" ↔
      lookupGo [("uuid", "U"), ("wait_for_guest_net", "false")] "wait_for_guest_net" =
        "false") ∧
    (lookupGo [("uuid", "U"), ("wait_for_guest_net", "false")] "wait_for_guest_net" ≠
        "false" →
      lookupGo?
        ((migrateV2 envW
          { id := "vm-w10",
            attributes := [("uuid", "U"), ("wait_for_guest_net", "false")] }).1.attributes)
        "wait_for_guest_net_timeout" =
        some (envW.schemaDefault "wait_for_guest_net_timeout")) :=
  v2_guest_net_timeout envW
    { id := "vm-w10", attributes := [("uuid", "U"), ("wait_for_guest_net", "false")] } 0 []
    (by decide) rfl rfl (fun n => ⟨[], rfl⟩) (by decide)

end VSphereMigrate
